import Mathlib

/-!
Verification of the safe query execution gateway (`db` module: `ensureSelectOnly`,
`runQuery`, `getSchema`) of the github-project-agent repository.

The TypeScript source is embedded shallowly:

* JavaScript string primitives (`trim`, `split`, `slice`, `toLowerCase`,
  `startsWith`, `endsWith`) are modelled on `List Char`; the source only ever
  feeds them ASCII SQL text, and the models below agree with JavaScript on
  every string whose characters are drawn from the basic multilingual plane
  (for `toLowerCase`, on ASCII, which is all the regression relevant here).
* The two regular expressions of the source are modelled by explicit scanners:
  `scanVerbs` for `/(insert|update|...|reindex)\b/i` and `scanParams` for
  `[...s.matchAll(/\$(\d+)/g)]` followed by `Math.max`.
* The stateful part of `runQuery` (pg pool + transaction) is modelled by an
  oracle `Db` mapping each issued statement to a result, and `runQuery`
  returns the list of connection events exactly in the order the source
  performs them, together with the value the source returns or throws.
-/

namespace Gateway

/-- Whitespace for the JavaScript `String.prototype.trim` model: space, tab,
line feed, carriage return, vertical tab and form feed. -/
def jsWs (c : Char) : Bool :=
  c = ' ' || c = '\t' || c = '\n' || c = '\r' || c = '\x0b' || c = '\x0c'

/-- Drop leading JavaScript whitespace. -/
def trimLeftL (l : List Char) : List Char := l.dropWhile jsWs

/-- Drop trailing JavaScript whitespace. -/
def trimRightL (l : List Char) : List Char := (l.reverse.dropWhile jsWs).reverse

/-- Model of `s.trim()` on the character list. -/
def jsTrimL (l : List Char) : List Char := trimRightL (trimLeftL l)

/-- Model of `String.prototype.toLowerCase` on one character; the source only
lowercases SQL text, and on ASCII JavaScript maps exactly the letters A-Z. -/
def jsLower (c : Char) : Char :=
  match c with
  | 'A' => 'a' | 'B' => 'b' | 'C' => 'c' | 'D' => 'd' | 'E' => 'e' | 'F' => 'f'
  | 'G' => 'g' | 'H' => 'h' | 'I' => 'i' | 'J' => 'j' | 'K' => 'k' | 'L' => 'l'
  | 'M' => 'm' | 'N' => 'n' | 'O' => 'o' | 'P' => 'p' | 'Q' => 'q' | 'R' => 'r'
  | 'S' => 's' | 'T' => 't' | 'U' => 'u' | 'V' => 'v' | 'W' => 'w' | 'X' => 'x'
  | 'Y' => 'y' | 'Z' => 'z'
  | c => c

/-- Lowercase a character list, as `s.toLowerCase()` does. -/
def lowerL (l : List Char) : List Char := l.map jsLower

/-- Model of `s.split(";")`: cut the list at every semicolon, keeping empty
segments, as the JavaScript splitter does. -/
def splitSemi : List Char → List (List Char)
  | [] => [[]]
  | c :: rest =>
    let r := splitSemi rest
    if c = ';' then [] :: r else (c :: r.headD []) :: r.tail

/-- Number of non-empty segments between semicolons: the source's
`s.split(";").filter(Boolean).length` (JavaScript `Boolean("")` is `false`). -/
def nonEmptySegs (l : List Char) : Nat :=
  ((splitSemi l).filter (fun g => !g.isEmpty)).length

/-- Model of `s.endsWith(";") ? s.slice(0, -1) : s`: remove one trailing
semicolon when present. -/
def noSemiL (l : List Char) : List Char :=
  if l.getLast? = some ';' then l.dropLast else l

/-- Non-separator character test, used to state which inputs hold a real
second statement: true on every character other than a semicolon. -/
def notSemi (c : Char) : Bool := c ≠ ';'

/-- Word characters of the JavaScript regex `\b` boundary (`\w`):
ASCII letters, digits and underscore. -/
def isWordChar (c : Char) : Bool := c.isAlpha || c.isDigit || c = '_'

/-- The forbidden write/DDL verbs of the source's regex alternation, in
source order, as character lists. -/
def verbs : List (List Char) :=
  [ "insert", "update", "delete", "alter", "drop", "create", "truncate",
    "grant", "revoke", "vacuum", "analyze", "reindex" ].map String.data

/-- Right word-boundary test: `\b` holds after a verb when the rest of the
text is empty or starts with a non-word character. -/
def rbound : List Char → Bool
  | [] => true
  | c :: _ => !isWordChar c

/-- Left-boundary test on the character standing before a position
(`none` = start of text). -/
def lbound : Option Char → Bool
  | none => true
  | some c => !isWordChar c

/-- Whether pattern `v` matches at the head of `l` and is followed by a
right word boundary. -/
def matchHere : List Char → List Char → Bool
  | [], rest => rbound rest
  | _ :: _, [] => false
  | c :: v, d :: l => c = d && matchHere v l

/-- Scan for a verb occurrence whose preceding character satisfies `g` and
which is followed by a right word boundary; `prev` is the character before
the current position. With `g` constantly true this is the source regex
`/(insert|...|reindex)\b/i` applied to an already lowercased text. -/
def scanVerbs (g : Option Char → Bool) : Option Char → List Char → Bool
  | _, [] => false
  | prev, c :: rest =>
    (g prev && verbs.any (fun v => matchHere v (c :: rest)))
      || scanVerbs g (some c) rest

/-- The source's forbidden-keyword test on the statement (after the one
trailing semicolon was removed): case-insensitive, right boundary only. -/
def forbiddenB (noSemi : List Char) : Bool :=
  scanVerbs (fun _ => true) none (lowerL noSemi)

/-- The source's prefix test: `noSemi.trim().slice(0, 20).toLowerCase()`
starts with `select` or `with`. -/
def prefixOkB (noSemi : List Char) : Bool :=
  let head := lowerL ((jsTrimL noSemi).take 20)
  "select".data.isPrefixOf head || "with".data.isPrefixOf head

/-- Message thrown by `ensureSelectOnly` for a multi-statement input. -/
def multiMsg : String := "Only a single SELECT statement is allowed."

/-- Message thrown by `ensureSelectOnly` when the statement is not a SELECT. -/
def prefixMsg : String := "Only SELECT queries are allowed."

/-- Message thrown by `ensureSelectOnly` on a forbidden keyword. -/
def forbiddenMsg : String := "Query contains forbidden keywords. Read-only SELECTs only."

/-- The source's `ensureSelectOnly(sql)`: trim, reject when more than one
non-empty semicolon segment, remove one trailing semicolon, reject unless the
head starts with select/with, reject on a forbidden verb, and return the
statement with the trailing semicolon removed. -/
def ensureSelectOnly (sql : String) : Except String String :=
  let s := jsTrimL sql.data
  if 1 < nonEmptySegs s then .error multiMsg
  else
    let noSemi := noSemiL s
    if !prefixOkB noSemi then .error prefixMsg
    else if forbiddenB noSemi then .error forbiddenMsg
    else .ok (String.mk noSemi)

/-- Clamp of the caller limit: `Math.max(0, Math.min(limit, 2000))`. -/
def clampLimit (x : Int) : Int := max 0 (min x 2000)

/-- Clamp of the caller offset: `Math.max(0, offset)`. -/
def clampOffset (x : Int) : Int := max 0 x

/-- Clamp of the statement timeout: `Math.max(1000, Math.min(timeoutMs, 60000))`. -/
def clampTimeout (x : Int) : Int := max 1000 (min x 60000)

/-- Scanner state for the `\$(\d+)` parameter-placeholder scan: outside any
candidate, just after a dollar sign, or inside a digit run with its value. -/
inductive PState where
  | normal
  | dollar
  | digits (acc : Nat)

/-- Model of `[...safeSql.matchAll(/\$(\d+)/g)]` followed by taking the
maximum matched number (0 when there is no match): a left-to-right scan;
a dollar sign followed by a maximal digit run contributes the run's value. -/
def scanParams : PState → List Char → Nat
  | .normal, [] => 0
  | .dollar, [] => 0
  | .digits acc, [] => acc
  | .normal, c :: rest =>
    if c = '$' then scanParams .dollar rest else scanParams .normal rest
  | .dollar, c :: rest =>
    if c.isDigit then scanParams (.digits (c.toNat - 48)) rest
    else if c = '$' then scanParams .dollar rest
    else scanParams .normal rest
  | .digits acc, c :: rest =>
    if c.isDigit then scanParams (.digits (acc * 10 + (c.toNat - 48))) rest
    else if c = '$' then max acc (scanParams .dollar rest)
    else max acc (scanParams .normal rest)

/-- Highest positional-parameter index literally referenced in a SQL text. -/
def maxParamIdx (s : String) : Nat := scanParams .normal s.data

/-- One value bound to the wrapped statement: a caller-supplied parameter
(opaque payload) or one of the two integers the gateway appends. -/
inductive BindVal where
  | raw (s : String)
  | int (n : Int)
  deriving DecidableEq

/-- The source's `QueryInput`; `none` stands for an absent optional field,
whose default the destructuring in `runQuery` supplies. -/
structure QueryInput where
  sql : String
  params : List BindVal := []
  limit : Option Int := none
  offset : Option Int := none
  timeoutMs : Option Int := none
  deriving DecidableEq

/-- A row returned by the data store; its contents are opaque to the gateway. -/
abbrev Row := String

/-- One statement issued on the acquired connection. -/
inductive Stmt where
  | beginRO
  | setTimeout (ms : Int)
  | exec (text : String) (values : List BindVal)
  | commit
  | rollback
  deriving DecidableEq

/-- One observable event of a `runQuery` call on the connection pool. -/
inductive Ev where
  | connect
  | stmt (s : Stmt)
  | release
  deriving DecidableEq

/-- The two error classes a `runQuery` call surfaces: a static validation
failure, or a propagated data-store execution failure. -/
inductive GwError where
  | validation (msg : String)
  | execution (msg : String)
  deriving DecidableEq

/-- The result envelope of a successful `runQuery` call. -/
structure Output where
  rowCount : Nat
  rows : List Row
  appliedLimit : Int
  appliedOffset : Int
  deriving DecidableEq

/-- The data store as an oracle: what each issued statement returns.
A `.error` models a thrown/rejected statement. -/
abbrev Db := Stmt → Except String (List Row)

/-- Base index for the appended parameters: the larger of the highest
placeholder index in the validated SQL and the params length. -/
def baseIdx (safeSql : String) (params : List BindVal) : Nat :=
  max (maxParamIdx safeSql) params.length

/-- The wrapped statement text the source builds around the validated SQL. -/
def wrappedText (safeSql : String) (b : Nat) : String :=
  "select * from ( " ++ safeSql ++ " ) as t limit $" ++ toString (b + 1)
    ++ " offset $" ++ toString (b + 2)

/-- The value list bound to the wrapped statement: the original params
followed by the clamped limit and the clamped offset. -/
def boundValues (params : List BindVal) (cl co : Int) : List BindVal :=
  params ++ [BindVal.int cl, BindVal.int co]

/-- The exec statement `runQuery` issues for a validated SQL text. -/
def execStmtOf (q : QueryInput) (safeSql : String) : Stmt :=
  Stmt.exec (wrappedText safeSql (baseIdx safeSql q.params))
    (boundValues q.params (clampLimit (q.limit.getD 200)) (clampOffset (q.offset.getD 0)))

/-- The statement that sets the transaction's statement timeout, with the
source's clamp applied to the caller value (default 15000). -/
def timeoutStmtOf (q : QueryInput) : Stmt :=
  Stmt.setTimeout (clampTimeout (q.timeoutMs.getD 15000))

/-- The source's `runQuery`: validate first (throwing before any pool use),
then connect, begin a read-only transaction, set the statement timeout,
run the wrapped statement, and commit; on the first failing statement,
attempt a rollback (its own outcome is swallowed) and rethrow the original
error; the connection is released on every path after acquisition. The
returned list is the event trace in source order. -/
def runQuery (db : Db) (q : QueryInput) : List Ev × Except GwError Output :=
  match ensureSelectOnly q.sql with
  | .error m => ([], .error (.validation m))
  | .ok safeSql =>
    match db Stmt.beginRO with
    | .error e =>
      ([Ev.connect, Ev.stmt Stmt.beginRO, Ev.stmt Stmt.rollback, Ev.release],
        .error (.execution e))
    | .ok _ =>
      match db (timeoutStmtOf q) with
      | .error e =>
        ([Ev.connect, Ev.stmt Stmt.beginRO, Ev.stmt (timeoutStmtOf q),
          Ev.stmt Stmt.rollback, Ev.release], .error (.execution e))
      | .ok _ =>
        match db (execStmtOf q safeSql) with
        | .error e =>
          ([Ev.connect, Ev.stmt Stmt.beginRO, Ev.stmt (timeoutStmtOf q),
            Ev.stmt (execStmtOf q safeSql), Ev.stmt Stmt.rollback, Ev.release],
            .error (.execution e))
        | .ok rows =>
          match db Stmt.commit with
          | .error e =>
            ([Ev.connect, Ev.stmt Stmt.beginRO, Ev.stmt (timeoutStmtOf q),
              Ev.stmt (execStmtOf q safeSql), Ev.stmt Stmt.commit,
              Ev.stmt Stmt.rollback, Ev.release], .error (.execution e))
          | .ok _ =>
            ([Ev.connect, Ev.stmt Stmt.beginRO, Ev.stmt (timeoutStmtOf q),
              Ev.stmt (execStmtOf q safeSql), Ev.stmt Stmt.commit, Ev.release],
              .ok { rowCount := rows.length, rows := rows,
                    appliedLimit := clampLimit (q.limit.getD 200),
                    appliedOffset := clampOffset (q.offset.getD 0) })

/-- One column row returned by the information-schema introspection of
`getSchema` (table, name, data type, nullability). -/
structure Column where
  table : String
  name : String
  dataType : String
  isNullable : Bool
  deriving DecidableEq

/-- One index row returned by the pg_indexes introspection of `getSchema`. -/
structure Index where
  table : String
  name : String
  definition : String
  deriving DecidableEq

/-- The result bundle of `getSchema`. -/
structure SchemaInfo where
  columns : List Column
  indexes : List Index
  summary : String
  deriving DecidableEq

/-- The source's hand-authored `KNOWN_SCHEMA_SUMMARY` constant, verbatim. -/
def KNOWN_SCHEMA_SUMMARY : String := "
Tables:

1) field_changes (append-only)
  - id BIGSERIAL PRIMARY KEY
  - project_node_id TEXT NOT NULL
  - project_name TEXT
  - item_node_id TEXT NOT NULL
  - content_node_id TEXT
  - content_type TEXT
  - content_title TEXT
  - content_url TEXT
  - repository_name TEXT
  - field_name TEXT NOT NULL
  - field_type TEXT NOT NULL
  - old_value JSONB
  - new_value JSONB
  - changed_at TIMESTAMPTZ NOT NULL
  - detected_at TIMESTAMPTZ DEFAULT NOW()
  - actor_login TEXT
  - UNIQUE(item_node_id, field_name, changed_at)
  Indexes: project_node_id, project_name, repository_name, item_node_id, changed_at

2) current_field_values (current snapshot)
  - project_node_id TEXT NOT NULL
  - project_name TEXT
  - item_node_id TEXT NOT NULL
  - content_node_id TEXT
  - content_type TEXT
  - content_title TEXT
  - content_url TEXT
  - repository_name TEXT
  - field_name TEXT NOT NULL
  - field_type TEXT NOT NULL
  - field_value JSONB
  - updated_at TIMESTAMPTZ DEFAULT NOW()
  - PRIMARY KEY (item_node_id, field_name)
  Indexes: project_node_id, project_name, repository_name

Usage patterns:
- \"What's new / what changed\" → query field_changes filtered by project_name (or project_node_id) with changed_at >= now() - interval '7 days'.
- \"Current state\" → query current_field_values filtered by project_name (or project_node_id).
- Common filters: repository_name, field_name (e.g. Status), actor_login, content_type.
"

/-- The source's `getSchema`, with the rows the two catalog introspection
queries return supplied as inputs (they are the only data the function
receives from the store): the summary field of the result is the
hand-authored constant, never derived from those rows. -/
def getSchema (colRows : List Column) (idxRows : List Index) : SchemaInfo :=
  { columns := colRows, indexes := idxRows, summary := KNOWN_SCHEMA_SUMMARY }

/-- A data store that answers every statement with one row. -/
def dbOkOne : Db := fun _ => .ok ["row"]

/-- A data store that rejects the wrapped SELECT and accepts everything else:
the shape of an execution failure of the caller's SQL. -/
def dbFailExec : Db := fun s =>
  match s with
  | Stmt.exec _ _ => .error "syntax error"
  | _ => .ok []

/-- Scenario A input: `select 1 as x` with out-of-range limit and offset. -/
def qA : QueryInput := { sql := "select 1 as x", limit := some 5000, offset := some (-10) }

/-- The trace of scenario A against `dbOkOne`. -/
def trA : List Ev :=
  [Ev.connect, Ev.stmt Stmt.beginRO, Ev.stmt (Stmt.setTimeout 15000),
    Ev.stmt (Stmt.exec "select * from ( select 1 as x ) as t limit $1 offset $2"
      [BindVal.int 2000, BindVal.int 0]),
    Ev.stmt Stmt.commit, Ev.release]

/-- The output envelope of scenario A against `dbOkOne`. -/
def outA : Output :=
  { rowCount := 1, rows := ["row"], appliedLimit := 2000, appliedOffset := 0 }

/-- The character standing immediately before the suffix that follows `pre`,
when the scan started with `prev` before `pre`: the last element of `pre`,
or `prev` when `pre` is empty. -/
def prevOf (prev : Option Char) : List Char → Option Char
  | [] => prev
  | c :: pre => prevOf (some c) pre

/-- Specification-side predicate for the prefix rule, following the claim
wording: the remaining text (after trimming and removal of at most one
trailing semicolon) begins, case-insensitively and ignoring leading
whitespace, with `select` or `with`. -/
def SpecPrefixAccepts (l : List Char) : Prop :=
  "select".data <+: lowerL (trimLeftL l) ∨ "with".data <+: lowerL (trimLeftL l)

/-- Specification-side predicate, following the spec/claim wording for the
keyword rule as the code implements its boundary: some forbidden verb occurs
(case-insensitively) somewhere in the text, followed by a non-word character
or the end of the text; nothing is required of what precedes it. -/
def ContainsVerbRB (l : List Char) : Prop :=
  ∃ pre v post, lowerL l = pre ++ v ++ post ∧ v ∈ verbs ∧ rbound post = true

/-- Specification-side predicate, following the claim wording: some forbidden
verb occurs as a whole word (case-insensitively) — bounded by non-word
characters (or the ends of the text) on both sides. -/
def ContainsVerbWW (l : List Char) : Prop :=
  ∃ pre v post, lowerL l = pre ++ v ++ post ∧ v ∈ verbs ∧ rbound post = true
    ∧ lbound pre.getLast? = true

end Gateway

namespace Gateway

theorem verbs_ne_nil : ∀ v ∈ verbs, v ≠ [] := by decide

theorem matchHere_iff (v l : List Char) :
    matchHere v l = true ↔ ∃ post, l = v ++ post ∧ rbound post = true := by
  induction v generalizing l with
  | nil => simp [matchHere]
  | cons c v ih =>
    cases l with
    | nil => simp [matchHere]
    | cons d l' =>
      simp only [matchHere, Bool.and_eq_true, decide_eq_true_eq, ih,
        List.cons_append, List.cons.injEq]
      constructor
      · rintro ⟨rfl, post, rfl, h⟩
        exact ⟨post, ⟨rfl, rfl⟩, h⟩
      · rintro ⟨post, ⟨rfl, rfl⟩, h⟩
        exact ⟨rfl, post, rfl, h⟩

theorem prevOf_ne_nil (prev : Option Char) :
    ∀ pre : List Char, pre ≠ [] → prevOf prev pre = pre.getLast? := by
  intro pre
  induction pre generalizing prev with
  | nil => intro h; exact absurd rfl h
  | cons c pre' ih =>
    intro _
    cases pre' with
    | nil => rfl
    | cons d pre'' =>
      rw [List.getLast?_cons_cons]
      exact ih (some c) (by simp)

theorem prevOf_none (pre : List Char) : prevOf none pre = pre.getLast? := by
  cases pre with
  | nil => rfl
  | cons c pre' => exact prevOf_ne_nil none (c :: pre') (by simp)

theorem scanVerbs_iff (g : Option Char → Bool) (prev : Option Char) (l : List Char) :
    scanVerbs g prev l = true ↔
      ∃ pre v post, l = pre ++ v ++ post ∧ v ∈ verbs ∧ rbound post = true
        ∧ g (prevOf prev pre) = true := by
  induction l generalizing prev with
  | nil =>
    simp only [scanVerbs]
    constructor
    · intro h
      exact absurd h (by simp)
    · rintro ⟨pre, v, post, h, hv, -, -⟩
      have hnil : v = [] := by
        have h' := h.symm
        simp only [List.append_eq_nil] at h'
        exact h'.1.2
      exact absurd hnil (verbs_ne_nil v hv)
  | cons c rest ih =>
    simp only [scanVerbs, Bool.or_eq_true, Bool.and_eq_true, List.any_eq_true]
    constructor
    · rintro (⟨hg, v, hv, hm⟩ | hrec)
      · rcases (matchHere_iff v (c :: rest)).mp hm with ⟨post, heq, hrb⟩
        exact ⟨[], v, post, by simpa using heq, hv, hrb, hg⟩
      · rcases (ih (some c)).mp hrec with ⟨pre, v, post, heq, hv, hrb, hg⟩
        exact ⟨c :: pre, v, post, by simp [heq], hv, hrb, hg⟩
    · rintro ⟨pre, v, post, heq, hv, hrb, hg⟩
      cases pre with
      | nil =>
        refine Or.inl ⟨hg, v, hv, ?_⟩
        exact (matchHere_iff v (c :: rest)).mpr ⟨post, by simpa using heq, hrb⟩
      | cons c' pre' =>
        simp only [List.cons_append, List.cons.injEq] at heq
        rcases heq with ⟨rfl, heq'⟩
        exact Or.inr ((ih (some c)).mpr ⟨pre', v, post, heq', hv, hrb, hg⟩)

theorem containsRB_iff (l : List Char) : ContainsVerbRB l ↔ forbiddenB l = true := by
  rw [ContainsVerbRB, forbiddenB, scanVerbs_iff]
  simp

theorem containsWW_iff (l : List Char) :
    ContainsVerbWW l ↔ scanVerbs lbound none (lowerL l) = true := by
  rw [ContainsVerbWW, scanVerbs_iff]
  simp [prevOf_none]

theorem eso_eq (sql : String) :
    ensureSelectOnly sql =
      if 1 < nonEmptySegs (jsTrimL sql.data) then .error multiMsg
      else if !prefixOkB (noSemiL (jsTrimL sql.data)) then .error prefixMsg
      else if forbiddenB (noSemiL (jsTrimL sql.data)) then .error forbiddenMsg
      else .ok (String.mk (noSemiL (jsTrimL sql.data))) := rfl

theorem multi_ne_prefix_msg : multiMsg ≠ prefixMsg := by decide

theorem multi_ne_forbidden_msg : multiMsg ≠ forbiddenMsg := by decide

theorem prefix_ne_forbidden_msg : prefixMsg ≠ forbiddenMsg := by decide

theorem eso_multi_iff (sql : String) :
    ensureSelectOnly sql = .error multiMsg ↔ 1 < nonEmptySegs (jsTrimL sql.data) := by
  rw [eso_eq]
  by_cases h1 : 1 < nonEmptySegs (jsTrimL sql.data) <;>
    by_cases h2 : prefixOkB (noSemiL (jsTrimL sql.data)) <;>
      by_cases h3 : forbiddenB (noSemiL (jsTrimL sql.data)) <;>
        simp [h1, h2, h3] <;> decide

theorem eso_prefix_iff (sql : String) :
    ensureSelectOnly sql = .error prefixMsg ↔
      ¬ 1 < nonEmptySegs (jsTrimL sql.data)
        ∧ prefixOkB (noSemiL (jsTrimL sql.data)) = false := by
  rw [eso_eq]
  by_cases h1 : 1 < nonEmptySegs (jsTrimL sql.data) <;>
    by_cases h2 : prefixOkB (noSemiL (jsTrimL sql.data)) <;>
      by_cases h3 : forbiddenB (noSemiL (jsTrimL sql.data)) <;>
        simp [h1, h2, h3] <;> decide

theorem eso_forbidden_iff (sql : String) :
    ensureSelectOnly sql = .error forbiddenMsg ↔
      ¬ 1 < nonEmptySegs (jsTrimL sql.data)
        ∧ prefixOkB (noSemiL (jsTrimL sql.data)) = true
        ∧ ContainsVerbRB (noSemiL (jsTrimL sql.data)) := by
  rw [eso_eq, containsRB_iff]
  by_cases h1 : 1 < nonEmptySegs (jsTrimL sql.data) <;>
    by_cases h2 : prefixOkB (noSemiL (jsTrimL sql.data)) <;>
      by_cases h3 : forbiddenB (noSemiL (jsTrimL sql.data)) <;>
        simp [h1, h2, h3] <;> decide

/-- Claim C1 counterexample: the claim states that an input in which a
forbidden verb occurs only as a proper substring of a longer word — its
example is a column named `last_update` — is not rejected by the keyword
rule. The source regex checks only the right word boundary, so
`select last_update from t` is rejected with the forbidden-keyword error
although it contains no whole-word occurrence of any forbidden verb. -/
theorem c1_keyword_counterexample :
    ensureSelectOnly "select last_update from t" = .error forbiddenMsg
      ∧ ¬ ContainsVerbWW "select last_update from t".data := by
  refine ⟨rfl, ?_⟩
  rw [containsWW_iff]
  decide

/-- Claim C1 amended: the gateway's keyword rule rejects (with the
forbidden-keyword error) exactly those inputs that pass the multi-statement
and prefix checks and whose text — after trimming and removal of one
trailing semicolon — contains one of the twelve forbidden verbs,
case-insensitively, at a position immediately followed by a non-word
character or the end of the text; the character before the occurrence is not
examined, so a verb that ends a longer word (`last_update`) is rejected,
while a verb followed by further word characters (`updated_at`) is not. -/
theorem c1_keyword_rule_amended (sql : String) :
    ensureSelectOnly sql = .error forbiddenMsg ↔
      ¬ 1 < nonEmptySegs (jsTrimL sql.data)
        ∧ prefixOkB (noSemiL (jsTrimL sql.data)) = true
        ∧ ContainsVerbRB (noSemiL (jsTrimL sql.data)) :=
  eso_forbidden_iff sql

theorem splitSemi_ne_nil (l : List Char) : splitSemi l ≠ [] := by
  cases l with
  | nil => simp [splitSemi]
  | cons c rest => by_cases h : c = ';' <;> simp [splitSemi, h]

theorem splitSemi_semi (rest : List Char) :
    splitSemi (';' :: rest) = [] :: splitSemi rest := by
  simp [splitSemi]

theorem splitSemi_cons {c : Char} (h : ¬ c = ';') (rest g : List Char)
    (gs : List (List Char)) (hsp : splitSemi rest = g :: gs) :
    splitSemi (c :: rest) = (c :: g) :: gs := by
  simp [splitSemi, h, hsp]

theorem nonEmptySegs_semi (rest : List Char) :
    nonEmptySegs (';' :: rest) = nonEmptySegs rest := by
  simp [nonEmptySegs, splitSemi_semi, List.filter_cons]

theorem nonEmptySegs_cons {c : Char} (h : ¬ c = ';') (rest g : List Char)
    (gs : List (List Char)) (hsp : splitSemi rest = g :: gs) :
    nonEmptySegs (c :: rest) = (gs.filter (fun x => !x.isEmpty)).length + 1 := by
  simp [nonEmptySegs, splitSemi_cons h rest g gs hsp, List.filter_cons]

theorem segs_pos_iff : ∀ l : List Char, 0 < nonEmptySegs l ↔ l.any notSemi = true := by
  intro l
  induction l with
  | nil => simp [nonEmptySegs, splitSemi]
  | cons c rest ih =>
    by_cases hc : c = ';'
    · subst hc
      rw [nonEmptySegs_semi, ih]
      simp [notSemi]
    · obtain ⟨g, gs, hsp⟩ := List.exists_cons_of_ne_nil (splitSemi_ne_nil rest)
      rw [nonEmptySegs_cons hc rest g gs hsp]
      simp [notSemi, hc]

theorem tail_segs_iff : ∀ (l g : List Char) (gs : List (List Char)),
    splitSemi l = g :: gs →
    (0 < (gs.filter (fun x => !x.isEmpty)).length ↔
      ∃ a b, l = a ++ ';' :: b ∧ b.any notSemi = true) := by
  intro l
  induction l with
  | nil =>
    intro g gs hsp
    simp only [splitSemi] at hsp
    injection hsp with h1 h2
    subst h2
    constructor
    · intro h; simp at h
    · rintro ⟨a, b, h, -⟩
      exact absurd h (by cases a <;> simp)
  | cons c rest ih =>
    intro g gs hsp
    by_cases hc : c = ';'
    · subst hc
      rw [splitSemi_semi] at hsp
      injection hsp with h1 h2
      subst h2
      show 0 < nonEmptySegs rest ↔ _
      rw [segs_pos_iff]
      constructor
      · intro h
        exact ⟨[], rest, rfl, h⟩
      · rintro ⟨a, b, heq, hb⟩
        cases a with
        | nil =>
          injection heq with h1 h2
          subst h2
          exact hb
        | cons a0 as =>
          injection heq with h1 h2
          subst h2
          simp [List.any_append, hb]
    · obtain ⟨g', gs', hsp'⟩ := List.exists_cons_of_ne_nil (splitSemi_ne_nil rest)
      rw [splitSemi_cons hc rest g' gs' hsp'] at hsp
      injection hsp with h1 h2
      subst h2
      rw [ih g' gs' hsp']
      constructor
      · rintro ⟨a, b, heq, hb⟩
        exact ⟨c :: a, b, by simp [heq], hb⟩
      · rintro ⟨a, b, heq, hb⟩
        cases a with
        | nil =>
          injection heq with h1 h2
          exact absurd h1 hc
        | cons a0 as =>
          injection heq with h1 h2
          subst h1
          exact ⟨as, b, h2, hb⟩

theorem segs_two_iff : ∀ l : List Char, 1 < nonEmptySegs l ↔
    ∃ a b, l = a ++ ';' :: b ∧ a.any notSemi = true ∧ b.any notSemi = true := by
  intro l
  induction l with
  | nil =>
    constructor
    · intro h
      simp [nonEmptySegs, splitSemi] at h
    · rintro ⟨a, b, h, -, -⟩
      exact absurd h (by cases a <;> simp)
  | cons c rest ih =>
    by_cases hc : c = ';'
    · subst hc
      rw [nonEmptySegs_semi, ih]
      constructor
      · rintro ⟨a, b, heq, ha, hb⟩
        refine ⟨';' :: a, b, by simp [heq], ?_, hb⟩
        simp [List.any_cons, ha]
      · rintro ⟨a, b, heq, ha, hb⟩
        cases a with
        | nil => simp [notSemi] at ha
        | cons a0 as =>
          injection heq with h1 h2
          subst h1
          refine ⟨as, b, h2, ?_, hb⟩
          simpa [List.any_cons, notSemi] using ha
    · obtain ⟨g, gs, hsp⟩ := List.exists_cons_of_ne_nil (splitSemi_ne_nil rest)
      rw [nonEmptySegs_cons hc rest g gs hsp]
      have h01 : 1 < (gs.filter (fun x => !x.isEmpty)).length + 1 ↔
          0 < (gs.filter (fun x => !x.isEmpty)).length := by omega
      rw [h01, tail_segs_iff rest g gs hsp]
      constructor
      · rintro ⟨a, b, heq, hb⟩
        refine ⟨c :: a, b, by simp [heq], ?_, hb⟩
        simp [List.any_cons, notSemi, hc]
      · rintro ⟨a, b, heq, ha, hb⟩
        cases a with
        | nil =>
          injection heq with h1 h2
          exact absurd h1 hc
        | cons a0 as =>
          injection heq with h1 h2
          subst h1
          exact ⟨as, b, h2, hb⟩

/-- Claim C5 counterexample: the claim predicts that an input which, after
trimming and removing one trailing semicolon, still contains a semicolon is
rejected with the multi-statement error; but `select 1;;` — whose remaining
text `select 1;` does contain a semicolon — passes validation, because the
splitter discards empty segments between semicolons. -/
theorem c5_multi_statement_counterexample :
    ';' ∈ noSemiL (jsTrimL "select 1;;".data)
      ∧ ensureSelectOnly "select 1;;" = .ok "select 1;" :=
  ⟨by decide, rfl⟩

/-- Claim C5 amended: the multi-statement rule rejects exactly those inputs
whose trimmed text contains a semicolon with at least one non-semicolon
character somewhere before it and at least one non-semicolon character
somewhere after it; `select 1; select 2` fails this way, while a trailing
run of semicolons such as `select 1;;` does not trigger the rule. -/
theorem c5_multi_statement_amended :
    (∀ sql : String, ensureSelectOnly sql = .error multiMsg ↔
      ∃ a b, jsTrimL sql.data = a ++ ';' :: b
        ∧ a.any notSemi = true ∧ b.any notSemi = true)
    ∧ ensureSelectOnly "select 1; select 2" = .error multiMsg := by
  refine ⟨fun sql => ?_, rfl⟩
  rw [eso_multi_iff]
  exact segs_two_iff (jsTrimL sql.data)

theorem jsWs_jsLower (c : Char) : jsWs (jsLower c) = jsWs c := by
  unfold jsLower
  split <;> rfl

theorem lowerL_trimRightL (l : List Char) :
    lowerL (trimRightL l) = trimRightL (lowerL l) := by
  have hws : (fun c => jsWs (jsLower c)) = jsWs := by
    funext c
    exact jsWs_jsLower c
  simp only [lowerL, trimRightL, ← List.map_reverse, List.dropWhile_map,
    Function.comp_def, hws]

theorem isPrefixOf_take_iff (p l : List Char) (n : Nat) (hn : p.length ≤ n) :
    (p.isPrefixOf (l.take n) = true) ↔ (p.isPrefixOf l = true) := by
  rw [ List.isPrefixOf_iff_prefix, List.isPrefixOf_iff_prefix, List.prefix_take_iff]
  exact and_iff_left hn

theorem trimRightL_isPrefix (l : List Char) : trimRightL l <+: l := by
  have h1 : l.reverse.dropWhile jsWs <:+ l.reverse := List.dropWhile_suffix jsWs
  have h2 : (l.reverse.dropWhile jsWs).reverse <+: l.reverse.reverse :=
    List.reverse_prefix.mpr h1
  simpa using h2

theorem isPrefixOf_trimRight_iff (p l : List Char) (hp : p ≠ [])
    (hws : ∀ c ∈ p, jsWs c = false) :
    (p.isPrefixOf (trimRightL l) = true) ↔ (p.isPrefixOf l = true) := by
  rw [ List.isPrefixOf_iff_prefix, List.isPrefixOf_iff_prefix]
  constructor
  · intro h
    exact h.trans (trimRightL_isPrefix l)
  · rintro ⟨t, rfl⟩
    unfold trimRightL
    rw [List.reverse_append, List.dropWhile_append]
    split
    · obtain ⟨c, rp, hcp⟩ :=
        List.exists_cons_of_ne_nil (show p.reverse ≠ [] by simpa using hp)
      have hc : jsWs c = false := by
        have hmem : c ∈ p := by
          have hm : c ∈ p.reverse := hcp ▸ List.mem_cons_self c rp
          simpa using hm
        exact hws c hmem
      have hd : p.reverse.dropWhile jsWs = p.reverse := by
        rw [hcp, List.dropWhile_cons, hc]
        simp
      rw [hd, List.reverse_reverse]
    · rw [List.reverse_append, List.reverse_reverse]
      exact List.prefix_append p _

theorem isPrefixOf_head_iff (p l : List Char) (hp : p ≠ [])
    (hws : ∀ c ∈ p, jsWs c = false) (hlen : p.length ≤ 20) :
    (p.isPrefixOf (lowerL ((jsTrimL l).take 20)) = true) ↔
      (p.isPrefixOf (lowerL (trimLeftL l)) = true) := by
  have e1 : lowerL ((jsTrimL l).take 20) = (lowerL (jsTrimL l)).take 20 :=
    List.map_take jsLower (jsTrimL l) 20
  rw [e1, isPrefixOf_take_iff p (lowerL (jsTrimL l)) 20 hlen]
  show p.isPrefixOf (lowerL (trimRightL (trimLeftL l))) = true ↔ _
  rw [lowerL_trimRightL]
  exact isPrefixOf_trimRight_iff p (lowerL (trimLeftL l)) hp hws

theorem prefixOkB_iff (l : List Char) : prefixOkB l = true ↔ SpecPrefixAccepts l := by
  simp only [prefixOkB, SpecPrefixAccepts, Bool.or_eq_true]
  rw [isPrefixOf_head_iff "select".data l (by decide) (by decide) (by decide),
    isPrefixOf_head_iff "with".data l (by decide) (by decide) (by decide),
    List.isPrefixOf_iff_prefix, List.isPrefixOf_iff_prefix]

/-- Claim C6: after trimming and removal of at most one trailing semicolon,
the prefix rule accepts exactly the inputs whose remaining text begins,
case-insensitively and ignoring leading whitespace, with `select` or `with`;
`ensureSelectOnly` fails with the not-a-SELECT error exactly on inputs that
pass the multi-statement check and miss this prefix; a `WITH ... SELECT`
common table expression is accepted like a plain `SELECT`, and the empty and
the whitespace-only input are rejected by this rule. -/
theorem c6_prefix_rule :
    (∀ sql : String, prefixOkB (noSemiL (jsTrimL sql.data)) = true
        ↔ SpecPrefixAccepts (noSemiL (jsTrimL sql.data)))
    ∧ (∀ sql : String, ensureSelectOnly sql = .error prefixMsg ↔
        ¬ 1 < nonEmptySegs (jsTrimL sql.data)
          ∧ ¬ SpecPrefixAccepts (noSemiL (jsTrimL sql.data)))
    ∧ ensureSelectOnly "" = .error prefixMsg
    ∧ ensureSelectOnly "   " = .error prefixMsg
    ∧ ensureSelectOnly "with recent as (select 1) select * from recent"
        = .ok "with recent as (select 1) select * from recent" := by
  refine ⟨fun sql => prefixOkB_iff _, fun sql => ?_, rfl, rfl, rfl⟩
  rw [eso_prefix_iff]
  simp only [← prefixOkB_iff, Bool.not_eq_true]

theorem runQuery_exec_event (db : Db) (q : QueryInput) (safeSql : String)
    (h : ensureSelectOnly q.sql = .ok safeSql) (t : String) (vs : List BindVal)
    (hmem : Ev.stmt (Stmt.exec t vs) ∈ (runQuery db q).1) :
    t = wrappedText safeSql (baseIdx safeSql q.params)
      ∧ vs = boundValues q.params (clampLimit (q.limit.getD 200))
          (clampOffset (q.offset.getD 0)) := by
  unfold runQuery at hmem
  simp only [h] at hmem
  rcases h1 : db Stmt.beginRO with e1 | r1 <;> simp only [h1] at hmem
  · simp at hmem
  · rcases h2 : db (timeoutStmtOf q) with e2 | r2 <;> simp only [h2] at hmem
    · simp [timeoutStmtOf] at hmem
    · rcases h3 : db (execStmtOf q safeSql) with e3 | rows <;> simp only [h3] at hmem
      · simp [execStmtOf, timeoutStmtOf] at hmem
        exact ⟨hmem.1, hmem.2⟩
      · rcases h4 : db Stmt.commit with e4 | r4 <;> simp only [h4] at hmem <;>
          simp [execStmtOf, timeoutStmtOf] at hmem <;> exact ⟨hmem.1, hmem.2⟩

/-- Claim C3: when static validation fails, `runQuery` fails with a
ValidationError carrying one of the three human-readable reasons, and its
event trace is empty: no connection is acquired and no statement of any kind
is sent to the data store on that call. -/
theorem c3_validation_failure_no_store_call (db : Db) (q : QueryInput) (m : String)
    (h : ensureSelectOnly q.sql = .error m) :
    runQuery db q = ([], .error (.validation m))
      ∧ (m = multiMsg ∨ m = prefixMsg ∨ m = forbiddenMsg) := by
  constructor
  · unfold runQuery
    rw [h]
  · rw [eso_eq] at h
    split at h
    · injection h with h'
      exact Or.inl h'.symm
    · split at h
      · injection h with h'
        exact Or.inr (Or.inl h'.symm)
      · split at h
        · injection h with h'
          exact Or.inr (Or.inr h'.symm)
        · exact absurd h (by simp)

/-- Claim C3 witness: `select 1; select 2` produces an empty trace and the
multi-statement ValidationError. -/
theorem c3_witness :
    runQuery dbOkOne { sql := "select 1; select 2" } = ([], .error (.validation multiMsg))
      ∧ (multiMsg = multiMsg ∨ multiMsg = prefixMsg ∨ multiMsg = forbiddenMsg) :=
  c3_validation_failure_no_store_call dbOkOne { sql := "select 1; select 2" } multiMsg rfl

/-- Claim C2: every statement a validated call executes on the data store is
exactly `select * from ( <validated_sql> ) as t limit $B+1 offset $B+2`,
where B is the larger of the highest positional-parameter index literally
referenced in the validated SQL and the length of the supplied params, and
the bound value list is the original params followed by the clamped limit
and the clamped offset. -/
theorem c2_wrapped_statement (db : Db) (q : QueryInput) (safeSql : String)
    (h : ensureSelectOnly q.sql = .ok safeSql) (t : String) (vs : List BindVal)
    (hmem : Ev.stmt (Stmt.exec t vs) ∈ (runQuery db q).1) :
    t = "select * from ( " ++ safeSql ++ " ) as t limit $"
        ++ toString (max (maxParamIdx safeSql) q.params.length + 1)
        ++ " offset $" ++ toString (max (maxParamIdx safeSql) q.params.length + 2)
      ∧ vs = q.params ++ [BindVal.int (clampLimit (q.limit.getD 200)),
          BindVal.int (clampOffset (q.offset.getD 0))] :=
  runQuery_exec_event db q safeSql h t vs hmem

/-- Claim C2 witness: scenario A — `select 1 as x` with limit 5000 and
offset -10 executes `select * from ( select 1 as x ) as t limit $1 offset $2`
with values `[2000, 0]`. -/
theorem c2_witness :
    "select * from ( select 1 as x ) as t limit $1 offset $2"
        = "select * from ( " ++ "select 1 as x" ++ " ) as t limit $"
          ++ toString (max (maxParamIdx "select 1 as x") ([] : List BindVal).length + 1)
          ++ " offset $"
          ++ toString (max (maxParamIdx "select 1 as x") ([] : List BindVal).length + 2)
      ∧ [BindVal.int 2000, BindVal.int 0]
          = ([] : List BindVal) ++ [BindVal.int (clampLimit ((some (5000 : Int)).getD 200)),
              BindVal.int (clampOffset ((some (-10 : Int)).getD 0))] :=
  c2_wrapped_statement dbOkOne qA "select 1 as x" rfl
    "select * from ( select 1 as x ) as t limit $1 offset $2"
    [BindVal.int 2000, BindVal.int 0] (by decide)

/-- Claim C4: every successful call returns an `appliedLimit` within
`[0, 2000]` and an `appliedOffset ≥ 0`; these equal the total clamps of the
caller values (with defaults 200 and 0 when unset, 2000 for limit 5000 and 0
for offset -10), and are exactly the two values appended to the bound value
list of the executed wrapped statement. -/
theorem c4_clamping (db : Db) (q : QueryInput) (tr : List Ev) (out : Output)
    (h : runQuery db q = (tr, .ok out)) :
    0 ≤ out.appliedLimit ∧ out.appliedLimit ≤ 2000 ∧ 0 ≤ out.appliedOffset
      ∧ out.appliedLimit = clampLimit (q.limit.getD 200)
      ∧ out.appliedOffset = clampOffset (q.offset.getD 0)
      ∧ (q.limit = some 5000 → out.appliedLimit = 2000)
      ∧ (q.offset = some (-10) → out.appliedOffset = 0)
      ∧ (q.limit = none → out.appliedLimit = 200)
      ∧ (q.offset = none → out.appliedOffset = 0)
      ∧ ∃ t, Ev.stmt (Stmt.exec t (q.params
          ++ [BindVal.int out.appliedLimit, BindVal.int out.appliedOffset])) ∈ tr := by
  unfold runQuery at h
  rcases he : ensureSelectOnly q.sql with m | safeSql <;> simp only [he] at h
  · simp at h
  · rcases h1 : db Stmt.beginRO with e1 | r1 <;> simp only [h1] at h
    · simp at h
    · rcases h2 : db (timeoutStmtOf q) with e2 | r2 <;> simp only [h2] at h
      · simp at h
      · rcases h3 : db (execStmtOf q safeSql) with e3 | rows <;> simp only [h3] at h
        · simp at h
        · rcases h4 : db Stmt.commit with e4 | r4 <;> simp only [h4] at h
          · simp at h
          · rw [Prod.mk.injEq] at h
            obtain ⟨htr, hres⟩ := h
            injection hres with hout
            subst htr
            subst hout
            refine ⟨le_max_left 0 _, max_le (by norm_num) (min_le_right _ _),
              le_max_left 0 _, rfl, rfl, ?_, ?_, ?_, ?_, ?_⟩
            · intro hl
              simp [hl, clampLimit]
            · intro ho
              simp [ho, clampOffset]
            · intro hl
              simp [hl, clampLimit]
            · intro ho
              simp [ho, clampOffset]
            · refine ⟨wrappedText safeSql (baseIdx safeSql q.params), ?_⟩
              simp [execStmtOf, boundValues]

/-- Claim C4 witness: scenario A succeeds with appliedLimit 2000 and
appliedOffset 0, bound as the two appended values of the executed statement. -/
theorem c4_witness :
    0 ≤ outA.appliedLimit ∧ outA.appliedLimit ≤ 2000 ∧ 0 ≤ outA.appliedOffset
      ∧ outA.appliedLimit = clampLimit (qA.limit.getD 200)
      ∧ outA.appliedOffset = clampOffset (qA.offset.getD 0)
      ∧ (qA.limit = some 5000 → outA.appliedLimit = 2000)
      ∧ (qA.offset = some (-10) → outA.appliedOffset = 0)
      ∧ (qA.limit = none → outA.appliedLimit = 200)
      ∧ (qA.offset = none → outA.appliedOffset = 0)
      ∧ ∃ t, Ev.stmt (Stmt.exec t (qA.params
          ++ [BindVal.int outA.appliedLimit, BindVal.int outA.appliedOffset])) ∈ trA :=
  c4_clamping dbOkOne qA trA outA rfl

/-- Claim C7: for every validated call, whatever the data store answers, the
acquired connection is released exactly once and as the last event; and when
the wrapped statement itself fails (after BEGIN and the timeout setting
succeeded), a rollback is attempted right after the failing statement and
before the release, the call surfaces the store's original message unmasked
as an execution error, and no row set is returned. -/
theorem c7_rollback_and_release (db : Db) (q : QueryInput) (safeSql : String)
    (h : ensureSelectOnly q.sql = .ok safeSql) :
    ((runQuery db q).1.getLast? = some Ev.release
      ∧ (runQuery db q).1.count Ev.release = 1)
    ∧ (∀ (e : String) (r1 r2 : List Row), db Stmt.beginRO = .ok r1 →
        db (timeoutStmtOf q) = .ok r2 → db (execStmtOf q safeSql) = .error e →
        runQuery db q =
          ([Ev.connect, Ev.stmt Stmt.beginRO, Ev.stmt (timeoutStmtOf q),
            Ev.stmt (execStmtOf q safeSql), Ev.stmt Stmt.rollback, Ev.release],
            .error (.execution e))) := by
  constructor
  · unfold runQuery
    simp only [h]
    rcases h1 : db Stmt.beginRO with e1 | r1
    · exact ⟨rfl, rfl⟩
    · rcases h2 : db (timeoutStmtOf q) with e2 | r2
      · exact ⟨rfl, rfl⟩
      · rcases h3 : db (execStmtOf q safeSql) with e3 | rows
        · exact ⟨rfl, rfl⟩
        · rcases h4 : db Stmt.commit with e4 | r4
          · exact ⟨rfl, rfl⟩
          · exact ⟨rfl, rfl⟩
  · intro e r1 r2 hb hs hx
    unfold runQuery
    simp only [h, hb, hs, hx]

/-- Claim C7 witness: a store that rejects the wrapped statement makes
scenario A roll back, release last, and surface the original message. -/
theorem c7_witness :
    runQuery dbFailExec qA =
      ([Ev.connect, Ev.stmt Stmt.beginRO, Ev.stmt (Stmt.setTimeout 15000),
        Ev.stmt (Stmt.exec "select * from ( select 1 as x ) as t limit $1 offset $2"
          [BindVal.int 2000, BindVal.int 0]),
        Ev.stmt Stmt.rollback, Ev.release], .error (.execution "syntax error")) :=
  (c7_rollback_and_release dbFailExec qA "select 1 as x" rfl).2 "syntax error" [] []
    rfl rfl rfl

/-- Claim C9: `select 1;;` passes static validation — the multi-statement
check discards empty segments and only one trailing semicolon is removed —
so the gateway sends the wrapped statement, which carries the leftover
semicolon embedded inside the subquery, to the data store; a store that
rejects it makes the call fail as an execution error, not a ValidationError. -/
theorem c9_double_semicolon_passes :
    ensureSelectOnly "select 1;;" = .ok "select 1;"
      ∧ runQuery dbFailExec { sql := "select 1;;" } =
        ([Ev.connect, Ev.stmt Stmt.beginRO, Ev.stmt (Stmt.setTimeout 15000),
          Ev.stmt (Stmt.exec "select * from ( select 1; ) as t limit $1 offset $2"
            [BindVal.int 200, BindVal.int 0]),
          Ev.stmt Stmt.rollback, Ev.release], .error (.execution "syntax error"))
      ∧ ';' ∈ "select * from ( select 1; ) as t limit $1 offset $2".data :=
  ⟨rfl, rfl, by decide⟩

/-- Claim C10: when the highest placeholder index M in the validated SQL
exceeds the params length P, the bound value list still has exactly P + 2
entries with the clamped limit and offset at (1-based) positions P + 1 and
P + 2, while the wrapped text's LIMIT and OFFSET placeholders are M + 1 and
M + 2; the offset placeholder therefore exceeds the number of bound values,
so the pagination values are not bound to those placeholders. -/
theorem c10_param_gap (db : Db) (q : QueryInput) (safeSql : String)
    (h : ensureSelectOnly q.sql = .ok safeSql)
    (hgt : q.params.length < maxParamIdx safeSql)
    (t : String) (vs : List BindVal)
    (hmem : Ev.stmt (Stmt.exec t vs) ∈ (runQuery db q).1) :
    vs.length = q.params.length + 2
      ∧ vs[q.params.length]? = some (BindVal.int (clampLimit (q.limit.getD 200)))
      ∧ vs[q.params.length + 1]? = some (BindVal.int (clampOffset (q.offset.getD 0)))
      ∧ t = "select * from ( " ++ safeSql ++ " ) as t limit $"
          ++ toString (maxParamIdx safeSql + 1) ++ " offset $"
          ++ toString (maxParamIdx safeSql + 2)
      ∧ vs.length < maxParamIdx safeSql + 2 := by
  obtain ⟨ht, hv⟩ := runQuery_exec_event db q safeSql h t vs hmem
  have hbase : baseIdx safeSql q.params = maxParamIdx safeSql :=
    Nat.max_eq_left (Nat.le_of_lt hgt)
  subst ht hv
  rw [wrappedText, boundValues, hbase]
  refine ⟨by simp, ?_, ?_, rfl, by simp; omega⟩
  · rw [List.getElem?_append_right (Nat.le_refl _)]
    simp
  · rw [List.getElem?_append_right (Nat.le_add_right _ 1)]
    simp

/-- Claim C10 witness: `select $3 as x` with no params — placeholders $4/$5,
but only two bound values. -/
theorem c10_witness :
    ([BindVal.int 200, BindVal.int 0] : List BindVal).length =
        (({ sql := "select $3 as x" } : QueryInput)).params.length + 2
      ∧ ([BindVal.int 200, BindVal.int 0] : List BindVal)[(({ sql := "select $3 as x" } : QueryInput)).params.length]?
          = some (BindVal.int (clampLimit ((({ sql := "select $3 as x" } : QueryInput)).limit.getD 200)))
      ∧ ([BindVal.int 200, BindVal.int 0] : List BindVal)[(({ sql := "select $3 as x" } : QueryInput)).params.length + 1]?
          = some (BindVal.int (clampOffset ((({ sql := "select $3 as x" } : QueryInput)).offset.getD 0)))
      ∧ "select * from ( select $3 as x ) as t limit $4 offset $5"
          = "select * from ( " ++ "select $3 as x" ++ " ) as t limit $"
            ++ toString (maxParamIdx "select $3 as x" + 1) ++ " offset $"
            ++ toString (maxParamIdx "select $3 as x" + 2)
      ∧ ([BindVal.int 200, BindVal.int 0] : List BindVal).length
          < maxParamIdx "select $3 as x" + 2 :=
  c10_param_gap dbOkOne { sql := "select $3 as x" } "select $3 as x" rfl (by decide)
    "select * from ( select $3 as x ) as t limit $4 offset $5"
    [BindVal.int 200, BindVal.int 0] (by decide)

/-- Claim C8: the summary field of a successful `schema()` result is the one
hand-authored constant, independent of whatever rows the live catalog
introspection returned: two calls observing different column or index
metadata return the identical summary string. -/
theorem c8_static_summary :
    ∀ (c1 c2 : List Column) (i1 i2 : List Index),
      (getSchema c1 i1).summary = (getSchema c2 i2).summary
        ∧ (getSchema c1 i1).summary = KNOWN_SCHEMA_SUMMARY :=
  fun _ _ _ _ => ⟨rfl, rfl⟩

end Gateway
